import Mathlib

/-!
Verification of the `efr` repository's board-definition installer and plugin
tooling, by a shallow embedding of the Python sources into Lean.

Filesystem model: a path is a list of components; a filesystem maps each path
to `none` (absent), a file with string contents, or a directory.  The shell
utilities used by the sources are modelled on this state:

* `shutil.copytree src dst` lists `src` first (failing when it is not a
  directory) and then raises `FileExistsError` when `dst` already exists;
  otherwise it grafts the whole subtree rooted at `src` onto `dst`.
* `shutil.copy2 src dst` reads `src` (failing when it is not a file) and then
  writes `dst`, silently overwriting any existing destination file — it never
  raises `FileExistsError`.
* `shutil.rmtree p` removes the whole subtree rooted at `p`; `os.remove p`
  removes the single entry at `p`.
-/

namespace Efr

abbrev Path := List String

inductive Entry where
  | file (contents : String)
  | dir
deriving DecidableEq, Repr

abbrev FS := Path → Option Entry

/-- `os.path.exists` / `Path.exists`. -/
def fsExists (fs : FS) (p : Path) : Bool :=
  (fs p).isSome

/-- Write (or overwrite) a single entry. -/
def updateFS (fs : FS) (p : Path) (e : Entry) : FS :=
  fun q => if q = p then some e else fs q

/-- `os.remove`: drop the single entry at `p`. -/
def removeFS (fs : FS) (p : Path) : FS :=
  fun q => if q = p then none else fs q

/-- Strip `d` from the front of `p`; `some r` exactly when `p = d ++ r`. -/
def stripPre {α : Type} [DecidableEq α] : List α → List α → Option (List α)
  | [], p => some p
  | _ :: _, [] => none
  | a :: as, b :: bs => if a = b then stripPre as bs else none

/-- `shutil.rmtree`: remove the whole subtree rooted at `p`. -/
def rmtreeFS (fs : FS) (p : Path) : FS :=
  fun q => if (stripPre p q).isSome then none else fs q

/-- The copying part of `shutil.copytree`: every path under `dst` now mirrors
the corresponding path under `src`; all other paths are untouched. -/
def graftFS (fs : FS) (src dst : Path) : FS :=
  fun q =>
    match stripPre dst q with
    | some r => fs (src ++ r)
    | none => fs q

/-- Python exceptions raised by the modelled library calls. -/
inductive Err where
  | fileNotFound (p : Path)
  | fileExistsErr (p : Path)
  | notADirectory (p : Path)
  | isADirectory (p : Path)
  | keyError (k : String)
deriving DecidableEq, Repr

/-- `shutil.copytree src dst`: scans `src` first, then fails with
`FileExistsError` when `dst` exists, else grafts the tree. -/
def copytreeE (fs : FS) (src dst : Path) : Except Err FS :=
  match fs src with
  | none => .error (.fileNotFound src)
  | some (.file _) => .error (.notADirectory src)
  | some .dir =>
    if fsExists fs dst then .error (.fileExistsErr dst)
    else .ok (graftFS fs src dst)

/-- `shutil.copy2 src dst`: reads `src`, then writes `dst`, overwriting any
existing destination.  It never raises `FileExistsError`. -/
def copy2E (fs : FS) (src dst : Path) : Except Err FS :=
  match fs src with
  | none => .error (.fileNotFound src)
  | some .dir => .error (.isADirectory src)
  | some (.file c) => .ok (updateFS fs dst (.file c))

/-- `Path.name` / `os.path.basename`: last component of a path. -/
def pathName (p : Path) : String :=
  p.getLastD ""

/- ### Lemmas about the path/tree primitives -/

theorem stripPre_eq_some {α : Type} [DecidableEq α] :
    ∀ (d p r : List α), stripPre d p = some r → p = d ++ r := by
  intro d
  induction d with
  | nil =>
    intro p r h
    simp [stripPre] at h
    simp [h]
  | cons a as ih =>
    intro p r h
    cases p with
    | nil => simp [stripPre] at h
    | cons b bs =>
      by_cases hab : a = b
      · subst hab
        simp [stripPre] at h
        simpa using ih bs r h
      · simp [stripPre, Ne.symm hab, hab] at h

theorem stripPre_self_append {α : Type} [DecidableEq α] :
    ∀ (d r : List α), stripPre d (d ++ r) = some r := by
  intro d
  induction d with
  | nil => intro r; simp [stripPre]
  | cons a as ih => intro r; simp [stripPre, ih]

/-- Source paths and destination paths in the installer are unrelated: neither
extends the other. -/
def disjointPaths (p q : Path) : Prop :=
  (∀ r : Path, p ≠ q ++ r) ∧ (∀ r : Path, q ≠ p ++ r)

theorem stripPre_none_of_disjoint {p dst : Path} (h : disjointPaths p dst) :
    ∀ r : Path, stripPre dst (p ++ r) = none := by
  intro r
  cases hs : stripPre dst (p ++ r) with
  | none => rfl
  | some s =>
    exfalso
    have heq : p ++ r = dst ++ s := stripPre_eq_some dst (p ++ r) s hs
    rcases List.append_eq_append_iff.mp heq with ⟨a, ha, _⟩ | ⟨c, hc, _⟩
    · exact h.2 a ha
    · exact h.1 c hc

theorem stripPre_none_self_of_disjoint {p dst : Path} (h : disjointPaths p dst) :
    stripPre dst p = none := by
  have := stripPre_none_of_disjoint h []
  simpa using this

/- ### motorgo/board_install.py -/

/-- Console output of the board installer (`click.secho` / `click.echo`). -/
inductive MMsg where
  | variantNotFound (p : Path)
  | boardJsonNotFound (p : Path)
  | skipVariant (name : String)
  | overwriteVariant (name : String)
  | skipBoardJson (name : String)
  | overwriteBoardJson (name : String)
  | noFrameworkVersionsPrompt
  | noVersionsSelectedFramework
  | noFrameworkVersionsAll
  | noVersionsSelectedPlatform
  | noPlatformVersionsAll
  | installSuccessNote
deriving DecidableEq, Repr

/-- The `try copytree / except FileExistsError` body of `copy_framework_files`
(the `try ...` of lines 44-72 of `motorgo/board_install.py`), with the
destination `variants_dir / variant_path.name` passed in as `dst`.  The
`except` is modelled by branching on the error `copytree` raises. -/
def copy_tree_with_force (variant_path dst : Path) (force : Bool) (fs : FS) :
    Except Err (FS × List MMsg) :=
  match copytreeE fs variant_path dst with
  | .ok fs' => .ok (fs', [])
  | .error (.fileExistsErr _) =>
    if force then
      let fs1 := rmtreeFS fs dst
      match copytreeE fs1 variant_path dst with
      | .ok fs2 => .ok (fs2, [.overwriteVariant (pathName variant_path)])
      | .error e => .error e
    else
      .ok (fs, [.skipVariant (pathName variant_path)])
  | .error e => .error e

/-- `copy_framework_files` from `motorgo/board_install.py`: copy the variant
directory into `<framework_versioned_path>/variants/<variant name>`. -/
def copy_framework_files (framework_versioned_path variant_path : Path)
    (force : Bool) (fs : FS) : Except Err (FS × List MMsg) :=
  let variants_dir := framework_versioned_path ++ ["variants"]
  if fsExists fs variants_dir = false then
    .error (.fileNotFound variants_dir)
  else
    copy_tree_with_force variant_path (variants_dir ++ [pathName variant_path]) force fs

/-- `copy_platform_files` from `motorgo/board_install.py`: copy the board JSON
file into `<platform_versioned_path>/boards/<file name>`.  The source wraps
`shutil.copy2` in `try ... except FileExistsError`, but `copy2` overwrites an
existing destination instead of raising, so the handler is dead code. -/
def copy_platform_files (platform_versioned_path board_json_path : Path)
    (force : Bool) (fs : FS) : Except Err (FS × List MMsg) :=
  let boards_dir := platform_versioned_path ++ ["boards"]
  if fsExists fs boards_dir = false then
    .error (.fileNotFound boards_dir)
  else
    let dst := boards_dir ++ [pathName board_json_path]
    match copy2E fs board_json_path dst with
    | .ok fs' => .ok (fs', [])
    | .error (.fileExistsErr _) =>
      if force then
        let fs1 := removeFS fs dst
        match copy2E fs1 board_json_path dst with
        | .ok fs2 => .ok (fs2, [.overwriteBoardJson (pathName board_json_path)])
        | .error e => .error e
      else
        .ok (fs, [.skipBoardJson (pathName board_json_path)])
    | .error e => .error e

/-- Association-list lookup, modelling Python `dict[key]` access. -/
def lookupA : List (String × Path) → String → Option Path
  | [], _ => none
  | (k, v) :: rest, key => if k = key then some v else lookupA rest key

/-- The `for version in versions:` copy loops inside `install`: look each
selected version up in the scanned table and run the copy, accumulating the
reported messages and propagating any raised exception. -/
def runCopies (f : Path → FS → Except Err (FS × List MMsg))
    (table : List (String × Path)) :
    List String → FS → List MMsg → Except Err (FS × List MMsg)
  | [], fs, acc => .ok (fs, acc)
  | v :: rest, fs, acc =>
    match lookupA table v with
    | none => .error (.keyError v)
    | some p =>
      match f p fs with
      | .error e => .error e
      | .ok (fs', msgs) => runCopies f table rest fs' (acc ++ msgs)

/-- `install` from `motorgo/board_install.py`.  The results of
`get_framework_versions` / `get_platform_versions` enter as `fwScan` /
`platScan` (an `Except` because either raises `FileNotFoundError` when its
base directory is missing), and the interactive `questionary` checkbox answers
enter as `selFw` / `selPlat`.  The function checks the variant directory and
board JSON under the source tree and returns early — copying nothing —
when either is missing. -/
def install (allFlag force : Bool) (board_name : String) (board_path : Path)
    (fwScan platScan : Except Path (List (String × Path)))
    (selFw selPlat : List String) (fs : FS) : Except Err (FS × List MMsg) :=
  let variant_path := board_path ++ ["motorgo_experimental", "variants", board_name]
  if fsExists fs variant_path = false then
    .ok (fs, [.variantNotFound variant_path])
  else
    let board_json_path := board_path ++ ["platformio_tools", "board_jsons", board_name ++ ".json"]
    if fsExists fs board_json_path = false then
      .ok (fs, [.boardJsonNotFound board_json_path])
    else
      match fwScan with
      | .error p => .error (.fileNotFound p)
      | .ok framework_versions =>
        -- `.error` below means "the source function returned at this point".
        let fwStep : Except (FS × List MMsg) (List String × List MMsg) :=
          if allFlag then
            if framework_versions.isEmpty then .error (fs, [.noFrameworkVersionsAll])
            else .ok (framework_versions.map (fun kv => kv.1), [])
          else
            if framework_versions.isEmpty then .ok ([], [.noFrameworkVersionsPrompt])
            else if selFw.isEmpty then .ok (selFw, [.noVersionsSelectedFramework])
            else .ok (selFw, [])
        match fwStep with
        | .error r => .ok r
        | .ok (fwSel, msgs1) =>
          match runCopies (fun p f => copy_framework_files p variant_path force f)
              framework_versions fwSel fs [] with
          | .error e => .error e
          | .ok (fs1, msgs2) =>
            match platScan with
            | .error p => .error (.fileNotFound p)
            | .ok platform_versions =>
              let platStep : Except (List MMsg) (List String × List MMsg) :=
                if allFlag then
                  if platform_versions.isEmpty then .error [.noPlatformVersionsAll]
                  else .ok (platform_versions.map (fun kv => kv.1), [])
                else
                  if selPlat.isEmpty then .error [.noVersionsSelectedPlatform]
                  else .ok (selPlat, [])
              match platStep with
              | .error ms => .ok (fs1, msgs1 ++ msgs2 ++ ms)
              | .ok (platSel, msgs3) =>
                match runCopies (fun p f => copy_platform_files p board_json_path force f)
                    platform_versions platSel fs1 [] with
                | .error e => .error e
                | .ok (fs2, msgs4) =>
                  .ok (fs2, msgs1 ++ msgs2 ++ msgs3 ++ msgs4 ++ [.installSuccessNote])

/- ### Claims about the copy operations and `install` -/

theorem copy_tree_with_force_skip (vp dst : Path) (fs : FS)
    (hsrc : fs vp = some .dir) (hdst : fsExists fs dst = true) :
    copy_tree_with_force vp dst false fs = .ok (fs, [.skipVariant (pathName vp)]) := by
  simp [copy_tree_with_force, copytreeE, hsrc, hdst]

theorem copy_tree_with_force_replace (vp dst : Path) (fs : FS)
    (hsrc : fs vp = some .dir) (hdst : fsExists fs dst = true)
    (hdisj : disjointPaths vp dst) :
    copy_tree_with_force vp dst true fs
      = .ok (graftFS (rmtreeFS fs dst) vp dst, [.overwriteVariant (pathName vp)])
    ∧ ∀ r : Path, graftFS (rmtreeFS fs dst) vp dst (dst ++ r) = fs (vp ++ r) := by
  have h1 : rmtreeFS fs dst vp = some Entry.dir := by
    simp [rmtreeFS, stripPre_none_self_of_disjoint hdisj, hsrc]
  have h2 : fsExists (rmtreeFS fs dst) dst = false := by
    have h0 : stripPre dst dst = some ([] : Path) := by
      simpa using stripPre_self_append dst []
    simp [fsExists, rmtreeFS, h0]
  refine ⟨?_, ?_⟩
  · simp [copy_tree_with_force, copytreeE, hsrc, hdst, h1, h2]
  · intro r
    simp [graftFS, stripPre_self_append, rmtreeFS, stripPre_none_of_disjoint hdisj]

/-- C5: without `force`, an already-present `variants/<board>` destination
makes `copy_framework_files` return the filesystem unchanged (byte-for-byte:
it is the very same state) together with the skip warning. -/
theorem copy_framework_skip_without_force
    (fwp vp : Path) (fs : FS)
    (hvd : fsExists fs (fwp ++ ["variants"]) = true)
    (hsrc : fs vp = some .dir)
    (hdst : fsExists fs (fwp ++ ["variants", pathName vp]) = true) :
    copy_framework_files fwp vp false fs = .ok (fs, [.skipVariant (pathName vp)]) := by
  simp [copy_framework_files, hvd, copy_tree_with_force_skip vp _ fs hsrc hdst]

/-- Concrete filesystem: a framework install with a stale variant `b` (holding
`stale.c`) and a source repository with variant `b` (holding `pins.h`). -/
def fsSkip : FS := fun p =>
  if p = ["fw"] then some .dir
  else if p = ["fw", "variants"] then some .dir
  else if p = ["fw", "variants", "b"] then some .dir
  else if p = ["fw", "variants", "b", "stale.c"] then some (.file "stale")
  else if p = ["repo"] then some .dir
  else if p = ["repo", "b"] then some .dir
  else if p = ["repo", "b", "pins.h"] then some (.file "pins")
  else none

theorem copy_framework_skip_without_force_witness :
    copy_framework_files ["fw"] ["repo", "b"] false fsSkip
      = .ok (fsSkip, [.skipVariant "b"]) :=
  copy_framework_skip_without_force ["fw"] ["repo", "b"] fsSkip rfl rfl rfl

/-- C6: with `force`, an already-present `variants/<board>` destination is
removed whole and the variant is copied again, so afterwards every path under
the destination mirrors exactly the corresponding path under the source
variant directory — in particular nothing stale survives. -/
theorem copy_framework_force_replaces
    (fwp vp : Path) (fs : FS)
    (hvd : fsExists fs (fwp ++ ["variants"]) = true)
    (hsrc : fs vp = some .dir)
    (hdst : fsExists fs (fwp ++ ["variants", pathName vp]) = true)
    (hdisj : disjointPaths vp (fwp ++ ["variants", pathName vp])) :
    copy_framework_files fwp vp true fs
      = .ok (graftFS (rmtreeFS fs (fwp ++ ["variants", pathName vp])) vp
               (fwp ++ ["variants", pathName vp]),
             [.overwriteVariant (pathName vp)])
    ∧ ∀ r : Path,
        graftFS (rmtreeFS fs (fwp ++ ["variants", pathName vp])) vp
            (fwp ++ ["variants", pathName vp])
            ((fwp ++ ["variants", pathName vp]) ++ r)
          = fs (vp ++ r) := by
  have hmain := copy_tree_with_force_replace vp (fwp ++ ["variants", pathName vp]) fs hsrc hdst hdisj
  refine ⟨?_, hmain.2⟩
  simp [copy_framework_files, hvd, hmain.1]

theorem copy_framework_force_replaces_witness :
    copy_framework_files ["fw"] ["repo", "b"] true fsSkip
      = .ok (graftFS (rmtreeFS fsSkip ["fw", "variants", "b"]) ["repo", "b"]
               ["fw", "variants", "b"],
             [.overwriteVariant "b"])
    ∧ graftFS (rmtreeFS fsSkip ["fw", "variants", "b"]) ["repo", "b"]
        ["fw", "variants", "b"] ["fw", "variants", "b", "stale.c"] = none
    ∧ graftFS (rmtreeFS fsSkip ["fw", "variants", "b"]) ["repo", "b"]
        ["fw", "variants", "b"] ["fw", "variants", "b", "pins.h"] = some (.file "pins") := by
  have hdisj : disjointPaths ["repo", "b"] ["fw", "variants", "b"] := by
    constructor
    · intro r h
      injection h with h1 _
      exact absurd h1 (by decide)
    · intro r h
      injection h with h1 _
      exact absurd h1 (by decide)
  exact ⟨(copy_framework_force_replaces ["fw"] ["repo", "b"] fsSkip rfl rfl rfl hdisj).1,
         (copy_framework_force_replaces ["fw"] ["repo", "b"] fsSkip rfl rfl rfl hdisj).2 ["stale.c"],
         (copy_framework_force_replaces ["fw"] ["repo", "b"] fsSkip rfl rfl rfl hdisj).2 ["pins.h"]⟩

/-- Concrete filesystem for the board-JSON copy: the platform already holds
`boards/b.json` with contents `"old"`; the source file holds `"new"`. -/
def fsC1 : FS := fun p =>
  if p = ["plat"] then some .dir
  else if p = ["plat", "boards"] then some .dir
  else if p = ["plat", "boards", "b.json"] then some (.file "old")
  else if p = ["repo", "b.json"] then some (.file "new")
  else none

/-- C1: contrary to the skip-without-force behaviour of the variant copy,
`copy_platform_files` with `force = false` silently overwrites an existing
`boards/<board>.json` (its contents change from `"old"` to `"new"`) and
reports no skip warning: `shutil.copy2` never raises the `FileExistsError`
the handler waits for. -/
theorem copy_platform_overwrites_without_force :
    copy_platform_files ["plat"] ["repo", "b.json"] false fsC1
      = .ok (updateFS fsC1 ["plat", "boards", "b.json"] (.file "new"), [])
    ∧ fsC1 ["plat", "boards", "b.json"] = some (.file "old")
    ∧ updateFS fsC1 ["plat", "boards", "b.json"] (.file "new") ["plat", "boards", "b.json"]
        = some (.file "new") :=
  ⟨rfl, rfl, rfl⟩

/-- C4: when the variant directory (or, with the variant present, the board
JSON) is missing under the source path, `install` returns before any copy,
with the filesystem untouched and a message naming the missing asset. -/
theorem install_missing_asset
    (allFlag force : Bool) (board_name : String) (board_path : Path)
    (fwScan platScan : Except Path (List (String × Path)))
    (selFw selPlat : List String) (fs : FS)
    (h : fs (board_path ++ ["motorgo_experimental", "variants", board_name]) = none
       ∨ fs (board_path ++ ["platformio_tools", "board_jsons", board_name ++ ".json"]) = none) :
    install allFlag force board_name board_path fwScan platScan selFw selPlat fs
      = .ok (fs,
          if fsExists fs (board_path ++ ["motorgo_experimental", "variants", board_name]) = false
          then [.variantNotFound (board_path ++ ["motorgo_experimental", "variants", board_name])]
          else [.boardJsonNotFound
                  (board_path ++ ["platformio_tools", "board_jsons", board_name ++ ".json"])]) := by
  by_cases hv : fs (board_path ++ ["motorgo_experimental", "variants", board_name]) = none
  · simp [install, fsExists, hv]
  · have hb : fs (board_path ++ ["platformio_tools", "board_jsons", board_name ++ ".json"]) = none := by
      rcases h with h | h
      · exact absurd h hv
      · exact h
    have hv' : (fs (board_path ++ ["motorgo_experimental", "variants", board_name])).isSome = true :=
      Option.ne_none_iff_isSome.mp hv
    simp [install, fsExists, hv', hb]

/-- The empty filesystem. -/
def fsEmpty : FS := fun _ => none

theorem install_missing_asset_witness :
    install true false "b" ["repo"] (.ok []) (.ok []) [] [] fsEmpty
      = .ok (fsEmpty,
          if fsExists fsEmpty (["repo"] ++ ["motorgo_experimental", "variants", "b"]) = false
          then [.variantNotFound (["repo"] ++ ["motorgo_experimental", "variants", "b"])]
          else [.boardJsonNotFound
                  (["repo"] ++ ["platformio_tools", "board_jsons", "b" ++ ".json"])]) :=
  install_missing_asset true false "b" ["repo"] (.ok []) (.ok []) [] [] fsEmpty (Or.inl rfl)

/- ### The toolchain version scanners
`get_platform_versions` and `get_framework_versions` in
`motorgo/board_install.py` share one body up to their base-name constant.
Directory names are modelled as lists of characters, and the scanner is
parameterised by the listing of child names of the base directory together
with a flag for whether the base directory itself exists. -/

abbrev DirName := List Char

/-- Python `str.split(sep)` on a list of characters. -/
def splitSep (sep : Char) : DirName → List DirName
  | [] => [[]]
  | c :: cs =>
    match splitSep sep cs with
    | [] => [[]]
    | s :: ss => if c = sep then [] :: s :: ss else (c :: s) :: ss

/-- `l[-1]` on a split result (which is never empty). -/
def lastD (d : DirName) : List DirName → DirName
  | [] => d
  | [x] => x
  | _ :: x :: xs => lastD d (x :: xs)

/-- `name.split("@")[-1] if "@" in name else "latest"` — the version a
directory name is filed under. -/
def versionOf (n : DirName) : DirName :=
  if '@' ∈ n then lastD [] (splitSep '@' n) else "latest".toList

/-- `path.glob(f"{base}@*")` on a single child name: the fnmatch pattern
`base@*` matches exactly the names extending `base ++ "@"`. -/
def globMatch (base n : DirName) : Bool :=
  (stripPre (base ++ ['@']) n).isSome

/-- Insertion into a Python `dict` modelled as an insertion-ordered
association list: a repeated key overwrites in place, a new key appends. -/
def dictInsert (m : List (DirName × DirName)) (k v : DirName) : List (DirName × DirName) :=
  match m with
  | [] => [(k, v)]
  | (k', v') :: rest => if k' = k then (k', v) :: rest else (k', v') :: dictInsert rest k v

/-- Python `dict.get`. -/
def dictLookup : List (DirName × DirName) → DirName → Option DirName
  | [], _ => none
  | (k, v) :: rest, key => if k = key then some v else dictLookup rest key

/-- The scanning loop shared by `get_platform_versions` and
`get_framework_versions` (lines 148-166 and 193-211): the child named exactly
`base` (when present) is processed first, then the children matching
`base@*`, each filed under `versionOf` its name.  Values are the child
directory names (standing for `base_path / name`). -/
def scanVersions (base : DirName) (children : List DirName) : List (DirName × DirName) :=
  let globDirs := children.filter (fun n => globMatch base n)
  let dirs := if base ∈ children then base :: globDirs else globDirs
  dirs.foldl (fun m n => dictInsert m (versionOf n) n) []

/-- The full scanner body: `FileNotFoundError` when the base directory itself
does not exist, else the scanned mapping. -/
def scanVersionsChecked (base : DirName) (baseDirExists : Bool)
    (children : List DirName) : Except DirName (List (DirName × DirName)) :=
  if baseDirExists = false then .error base
  else .ok (scanVersions base children)

def PLATFORM_NAME : DirName := "espressif32".toList

def FRAMEWORK_NAME : DirName := "framework-arduinoespressif32".toList

/-- `get_platform_versions`, scanning `~/.platformio/platforms`. -/
def get_platform_versions (baseDirExists : Bool) (children : List DirName) :
    Except DirName (List (DirName × DirName)) :=
  scanVersionsChecked PLATFORM_NAME baseDirExists children

/-- `get_framework_versions`, scanning `~/.platformio/packages`. -/
def get_framework_versions (baseDirExists : Bool) (children : List DirName) :
    Except DirName (List (DirName × DirName)) :=
  scanVersionsChecked FRAMEWORK_NAME baseDirExists children

/-- `.isOk = false` means the Python function raised. -/
def exceptRaised {ε α : Type} : Except ε α → Bool
  | .error _ => true
  | .ok _ => false

/- ### Lemmas about `splitSep` and `versionOf` -/

theorem splitSep_ne_nil (sep : Char) (l : DirName) : splitSep sep l ≠ [] := by
  cases l with
  | nil => simp [splitSep]
  | cons c cs =>
    cases h : splitSep sep cs with
    | nil => simp [splitSep, h]
    | cons s ss =>
      by_cases hc : c = sep <;> simp [splitSep, h, hc]

theorem splitSep_of_not_mem (sep : Char) (l : DirName) (h : sep ∉ l) :
    splitSep sep l = [l] := by
  induction l with
  | nil => rfl
  | cons c cs ih =>
    have hc : c ≠ sep := fun hc => h (by simp [hc])
    have hcs : sep ∉ cs := fun hm => h (by simp [hm])
    simp [splitSep, ih hcs, hc]

theorem two_le_splitSep_length (sep : Char) (l : DirName) (h : sep ∈ l) :
    2 ≤ (splitSep sep l).length := by
  induction l with
  | nil => simp at h
  | cons c cs ih =>
    obtain ⟨s, ss, hss⟩ : ∃ s ss, splitSep sep cs = s :: ss := by
      cases hz : splitSep sep cs with
      | nil => exact absurd hz (splitSep_ne_nil sep cs)
      | cons s ss => exact ⟨s, ss, rfl⟩
    by_cases hc : c = sep
    · simp [splitSep, hss, hc]
    · have hmem : sep ∈ cs := by
        rcases List.mem_cons.mp h with h1 | h1
        · exact absurd h1.symm hc
        · exact h1
      have := ih hmem
      rw [hss] at this
      simp [splitSep, hss, hc]
      simpa using this

theorem lastD_splitSep_append (xs v : DirName) :
    lastD [] (splitSep '@' (xs ++ '@' :: v)) = lastD [] (splitSep '@' v) := by
  induction xs with
  | nil =>
    obtain ⟨s, ss, hss⟩ : ∃ s ss, splitSep '@' v = s :: ss := by
      cases hz : splitSep '@' v with
      | nil => exact absurd hz (splitSep_ne_nil '@' v)
      | cons s ss => exact ⟨s, ss, rfl⟩
    simp [splitSep, hss, lastD]
  | cons c cs ih =>
    obtain ⟨s, ss, hss⟩ : ∃ s ss, splitSep '@' (cs ++ '@' :: v) = s :: ss := by
      cases hz : splitSep '@' (cs ++ '@' :: v) with
      | nil => exact absurd hz (splitSep_ne_nil '@' (cs ++ '@' :: v))
      | cons s ss => exact ⟨s, ss, rfl⟩
    have hlen : 2 ≤ (splitSep '@' (cs ++ '@' :: v)).length :=
      two_le_splitSep_length '@' (cs ++ '@' :: v) (by simp)
    obtain ⟨t, ts, hts⟩ : ∃ t ts, ss = t :: ts := by
      cases hz : ss with
      | nil =>
        rw [hss, hz] at hlen
        simp at hlen
      | cons t ts => exact ⟨t, ts, rfl⟩
    rw [hss, hts] at ih
    by_cases hc : c = '@'
    · show lastD [] (splitSep '@' (c :: (cs ++ '@' :: v))) = _
      simp [splitSep, hss, hts, hc, lastD] at ih ⊢
      exact ih
    · show lastD [] (splitSep '@' (c :: (cs ++ '@' :: v))) = _
      simp [splitSep, hss, hts, hc, lastD] at ih ⊢
      exact ih

theorem versionOf_append (base v : DirName) :
    versionOf (base ++ '@' :: v) = lastD [] (splitSep '@' v) := by
  have hmem : '@' ∈ base ++ '@' :: v := by simp
  simp [versionOf, hmem, lastD_splitSep_append]

theorem versionOf_append_clean (base v : DirName) (hv : '@' ∉ v) :
    versionOf (base ++ '@' :: v) = v := by
  rw [versionOf_append, splitSep_of_not_mem '@' v hv]
  rfl

/- ### Claims about the scanners -/

/-- C2 (counterexample): a child named `pkgX@1.0@2.0` — i.e. `basename@v`
with `v = "1.0@2.0"` — is not filed under version `v`: `split("@")[-1]` keeps
only what follows the last `@`, so it is filed under `"2.0"`. -/
theorem scanVersions_at_counterexample :
    dictLookup (scanVersions ("pkgX".toList) [("pkgX@1.0@2.0").toList]) (("1.0@2.0").toList) = none
    ∧ dictLookup (scanVersions ("pkgX".toList) [("pkgX@1.0@2.0").toList]) (("2.0").toList)
        = some (("pkgX@1.0@2.0").toList) := by
  decide

/-- C2 (amended): for a base name containing no `@`, the child named exactly
`base` is filed under `"latest"`; a child named `base@v` matches the glob and
is filed under the segment of `v` after its last `@` — which is `v` itself
whenever `v` contains no `@`; and on the claim's concrete listing the scanner
returns exactly the claimed mapping, excluding `other`. -/
theorem scanVersions_amended (base v : DirName) (hb : '@' ∉ base) :
    versionOf base = "latest".toList
    ∧ globMatch base (base ++ '@' :: v) = true
    ∧ versionOf (base ++ '@' :: v) = lastD [] (splitSep '@' v)
    ∧ ('@' ∉ v → versionOf (base ++ '@' :: v) = v)
    ∧ scanVersions ("pkgX".toList)
        [("pkgX").toList, ("pkgX@1.2.0").toList, ("other").toList, ("pkgX@2.0.0").toList]
        = [("latest".toList, "pkgX".toList),
           (("1.2.0").toList, ("pkgX@1.2.0").toList),
           (("2.0.0").toList, ("pkgX@2.0.0").toList)] := by
  refine ⟨by simp [versionOf, hb], ?_, versionOf_append base v,
    versionOf_append_clean base v, by decide⟩
  have h2 := stripPre_self_append (base ++ ['@']) v
  rw [List.append_assoc, List.singleton_append] at h2
  simp [globMatch, h2]

theorem scanVersions_amended_witness :
    versionOf ("pkgX".toList) = "latest".toList
    ∧ versionOf ("pkgX".toList ++ '@' :: ("1.2.0").toList) = ("1.2.0").toList :=
  ⟨(scanVersions_amended ("pkgX".toList) (("1.2.0").toList) (by decide)).1,
   (scanVersions_amended ("pkgX".toList) (("1.2.0").toList) (by decide)).2.2.2.1 (by decide)⟩

/-- C3: the scanner raises exactly when the base directory does not exist;
with the base directory present but no matching children it returns the empty
mapping without error. -/
theorem scanVersionsChecked_error_iff (base : DirName) (ex : Bool) (children : List DirName) :
    (exceptRaised (scanVersionsChecked base ex children) = true ↔ ex = false)
    ∧ ((ex = true ∧ base ∉ children ∧ ∀ n ∈ children, globMatch base n = false)
        → scanVersionsChecked base ex children = .ok []) := by
  constructor
  · cases ex <;> simp [scanVersionsChecked, exceptRaised]
  · rintro ⟨hex, hmem, hglob⟩
    subst hex
    have hfil : children.filter (fun n => globMatch base n) = [] := by
      rw [List.filter_eq_nil_iff]
      intro n hn
      simp [hglob n hn]
    simp [scanVersionsChecked, scanVersions, hmem, hfil]

theorem scanVersionsChecked_error_iff_witness :
    (exceptRaised (scanVersionsChecked PLATFORM_NAME false []) = true ↔ false = false)
    ∧ scanVersionsChecked PLATFORM_NAME true [("other").toList] = .ok [] :=
  ⟨(scanVersionsChecked_error_iff PLATFORM_NAME false []).1,
   (scanVersionsChecked_error_iff PLATFORM_NAME true [("other").toList]).2
     ⟨rfl, by decide, by decide⟩⟩

/- ### plugins/plugin_utils.py and plugins/cli.py -/

/-- One registry entry: `{description, install_url}` (fields read with
`.get`, hence optional). -/
structure PluginInfo where
  description : Option String
  install_url : Option String
deriving DecidableEq, Repr

/-- Console output of the plugins CLI. -/
inductive PMsg where
  | fetchRegistryError
  | pluginNotFound (name : String)
  | noInstallUrl (name : String)
  | alreadyInstalled (name : String)
  | fetchingScript
  | downloadError
  | runningScript (name : String)
  | installSuccess (name : String)
  | installScriptError
  | cleanupComplete
  | fileInitialized (name : String)
deriving DecidableEq, Repr

/-- Python exceptions escaping the plugins CLI. -/
inductive PyErr where
  | attributeError (detail : String)
  | fileNotFound (p : Path)
  | fileExistsErr (p : Path)
  | isADirectory (p : Path)
deriving DecidableEq, Repr

/-- Python `str.lower()` (ASCII range, which covers the package names in
play), mapping `Char.toLower` over the characters. -/
def strLower (s : String) : String :=
  String.mk (s.data.map Char.toLower)

/-- `is_plugin_installed` from `plugin_utils.py`: the package set is the
locally installed project names lowercased, and the candidate is
`f"efr-{plugin_name}".lower()`. -/
def is_plugin_installed (plugin_name : String) (installedProjectNames : List String) : Bool :=
  let installed_packages := installedProjectNames.map strLower
  let candidate_name := strLower ("efr-" ++ plugin_name)
  installed_packages.contains candidate_name

/-- The classification loop of `list_plugins` in `plugins/cli.py`: each
registry entry goes to the installed list when `f"efr-{name}".lower()` is
among the lowercased installed package names, else to the uninstalled list,
keeping registry order. -/
def classify_plugins :
    List (String × PluginInfo) → List String →
      List (String × PluginInfo) × List (String × PluginInfo)
  | [], _ => ([], [])
  | p :: rest, installedNames =>
    let (ins, unins) := classify_plugins rest installedNames
    if (installedNames.map strLower).contains (strLower ("efr-" ++ p.1))
    then (p :: ins, unins)
    else (ins, p :: unins)

/-- `retrieve_registry` from `plugin_utils.py`: on a transport/HTTP failure
the exception is caught, an error is reported, and `None` is returned. -/
def retrieve_registry (fetchResult : Except String (List (String × PluginInfo))) :
    Option (List (String × PluginInfo)) × List PMsg :=
  match fetchResult with
  | .ok r => (some r, [])
  | .error _ => (none, [.fetchRegistryError])

/-- Python `registry.get(plugin_name)`. -/
def lookupReg : List (String × PluginInfo) → String → Option PluginInfo
  | [], _ => none
  | (k, v) :: rest, key => if k = key then some v else lookupReg rest key

/-- `list_plugins` from `plugins/cli.py`: fetch the registry, then iterate
`plugin_registry.items()` — which, when the fetch failed and
`retrieve_registry` returned `None`, raises an (uncaught) `AttributeError`. -/
def list_plugins (fetchResult : Except String (List (String × PluginInfo)))
    (installedNames : List String) :
    List PMsg × Except PyErr (List (String × PluginInfo) × List (String × PluginInfo)) :=
  match retrieve_registry fetchResult with
  | (none, msgs) => (msgs, .error (.attributeError "NoneType has no attribute items"))
  | (some reg, msgs) => (msgs, .ok (classify_plugins reg installedNames))

/-- `install_plugin` from `plugins/cli.py`.  The registry fetch, the install
script download (`requests.get` + `raise_for_status`), the temp-file name
chosen by `tempfile`, and the `subprocess.run` outcome enter as parameters.
The script is written to `script_path`, the subprocess outcome is reported
(`CalledProcessError` is caught), and the `finally:` block removes the temp
file when it still exists. -/
def install_plugin (plugin_name : String) (upgrade is_windows : Bool)
    (registryFetch : Except String (List (String × PluginInfo)))
    (installedNames : List String)
    (download : Except String String)
    (script_path : Path) (subprocessOk : Bool) (fs : FS) :
    Except PyErr (FS × List PMsg) :=
  match retrieve_registry registryFetch with
  | (none, _) => .error (.attributeError "NoneType has no attribute get")
  | (some registry, msgs0) =>
    match lookupReg registry plugin_name with
    | none => .ok (fs, msgs0 ++ [.pluginNotFound plugin_name])
    | some plugin_info =>
      match plugin_info.install_url with
      | none => .ok (fs, msgs0 ++ [.noInstallUrl plugin_name])
      | some install_url =>
        let _install_url :=
          if is_windows then install_url.replace "install.sh" "install.ps1" else install_url
        if is_plugin_installed plugin_name installedNames && !upgrade then
          .ok (fs, msgs0 ++ [.alreadyInstalled plugin_name])
        else
          match download with
          | .error _ => .ok (fs, msgs0 ++ [.fetchingScript, .downloadError])
          | .ok script_text =>
            let fs1 := updateFS fs script_path (.file script_text)
            let runMsg :=
              if subprocessOk then PMsg.installSuccess plugin_name
              else PMsg.installScriptError
            let fs2 := if (fs1 script_path).isSome then removeFS fs1 script_path else fs1
            .ok (fs2, msgs0 ++ [.fetchingScript, .runningScript plugin_name, runMsg,
                                .cleanupComplete])

/-- `_init_file` from `plugin_utils.py`: guard on the template, then the
target-existence guard, then `read_text`, `format` (abstracted as `render`)
and `write_text`.  The pair carries the filesystem at return or raise time. -/
def init_file (template_path target_path : Path) (render : String → String) (fs : FS) :
    FS × Except PyErr (List PMsg) :=
  if fsExists fs template_path = false then
    (fs, .error (.fileNotFound template_path))
  else if fsExists fs target_path = false then
    (fs, .error (.fileExistsErr target_path))
  else
    match fs template_path with
    | some (.file template_content) =>
      (updateFS fs target_path (.file (render template_content)),
       .ok [.fileInitialized (pathName target_path)])
    | _ => (fs, .error (.isADirectory template_path))

/- ### Claims about the plugins CLI -/

theorem classify_plugins_cons (q : String × PluginInfo) (rest : List (String × PluginInfo))
    (inst : List String) :
    classify_plugins (q :: rest) inst
      = if is_plugin_installed q.1 inst = true
        then (q :: (classify_plugins rest inst).1, (classify_plugins rest inst).2)
        else ((classify_plugins rest inst).1, q :: (classify_plugins rest inst).2) := by
  cases h : classify_plugins rest inst with
  | mk ins unins => simp [classify_plugins, is_plugin_installed, h]

theorem mem_classify_fst (reg : List (String × PluginInfo)) (inst : List String)
    (p : String × PluginInfo) :
    p ∈ (classify_plugins reg inst).1 ↔ p ∈ reg ∧ is_plugin_installed p.1 inst = true := by
  induction reg with
  | nil => simp [classify_plugins]
  | cons q rest ih =>
    rw [classify_plugins_cons]
    by_cases hq : is_plugin_installed q.1 inst = true
    · simp only [if_pos hq, List.mem_cons]
      constructor
      · intro h
        rcases h with rfl | h
        · exact ⟨Or.inl rfl, hq⟩
        · have hr := ih.mp h
          exact ⟨Or.inr hr.1, hr.2⟩
      · rintro ⟨hp | hp, hc⟩
        · exact Or.inl hp
        · exact Or.inr (ih.mpr ⟨hp, hc⟩)
    · simp only [if_neg hq, List.mem_cons]
      constructor
      · intro h
        have hr := ih.mp h
        exact ⟨Or.inr hr.1, hr.2⟩
      · rintro ⟨hp | hp, hc⟩
        · subst hp
          exact absurd hc hq
        · exact ih.mpr ⟨hp, hc⟩

theorem mem_classify_snd (reg : List (String × PluginInfo)) (inst : List String)
    (p : String × PluginInfo) :
    p ∈ (classify_plugins reg inst).2 ↔ p ∈ reg ∧ is_plugin_installed p.1 inst = false := by
  induction reg with
  | nil => simp [classify_plugins]
  | cons q rest ih =>
    rw [classify_plugins_cons]
    by_cases hq : is_plugin_installed q.1 inst = true
    · simp only [if_pos hq, List.mem_cons]
      constructor
      · intro h
        have hr := ih.mp h
        exact ⟨Or.inr hr.1, hr.2⟩
      · rintro ⟨hp | hp, hc⟩
        · subst hp
          rw [hq] at hc
          cases hc
        · exact ih.mpr ⟨hp, hc⟩
    · simp only [if_neg hq, List.mem_cons]
      have hq' : is_plugin_installed q.1 inst = false := by
        cases hb : is_plugin_installed q.1 inst with
        | false => rfl
        | true => exact absurd hb hq
      constructor
      · intro h
        rcases h with rfl | h
        · exact ⟨Or.inl rfl, hq'⟩
        · have hr := ih.mp h
          exact ⟨Or.inr hr.1, hr.2⟩
      · rintro ⟨hp | hp, hc⟩
        · exact Or.inl hp
        · exact Or.inr (ih.mpr ⟨hp, hc⟩)

/-- C7: an entry of the registry lands in the installed list exactly when a
package named `efr-<name>` is installed (case-insensitively), in the
uninstalled list otherwise; on the claim's concrete registry and installed
set, `foo` is classified installed and `bar` not. -/
theorem list_plugins_installed_iff (reg : List (String × PluginInfo)) (inst : List String)
    (p : String × PluginInfo) :
    (p ∈ (classify_plugins reg inst).1 ↔ p ∈ reg ∧ is_plugin_installed p.1 inst = true)
    ∧ (p ∈ (classify_plugins reg inst).2 ↔ p ∈ reg ∧ is_plugin_installed p.1 inst = false)
    ∧ classify_plugins
        [("foo", PluginInfo.mk (some "df") (some "uf")),
         ("bar", PluginInfo.mk (some "db") (some "ub"))]
        ["efr-foo"]
      = ([("foo", PluginInfo.mk (some "df") (some "uf"))],
         [("bar", PluginInfo.mk (some "db") (some "ub"))]) :=
  ⟨mem_classify_fst reg inst p, mem_classify_snd reg inst p, by decide⟩

/-- C8: once the install script has been downloaded and written to the temp
path, `install_plugin` ends with the temp file removed — for the succeeding
subprocess and for the failing one alike. -/
theorem install_plugin_temp_cleanup
    (plugin_name : String) (upgrade is_windows : Bool)
    (reg : List (String × PluginInfo)) (installedNames : List String)
    (info : PluginInfo) (url script_text : String) (script_path : Path)
    (subprocessOk : Bool) (fs : FS)
    (hlook : lookupReg reg plugin_name = some info)
    (hurl : info.install_url = some url)
    (hguard : (is_plugin_installed plugin_name installedNames && !upgrade) = false) :
    install_plugin plugin_name upgrade is_windows (.ok reg) installedNames
        (.ok script_text) script_path subprocessOk fs
      = .ok (removeFS (updateFS fs script_path (.file script_text)) script_path,
          [.fetchingScript, .runningScript plugin_name,
           (if subprocessOk then PMsg.installSuccess plugin_name else PMsg.installScriptError),
           .cleanupComplete])
    ∧ removeFS (updateFS fs script_path (.file script_text)) script_path script_path = none := by
  constructor
  · simp [install_plugin, retrieve_registry, hlook, hurl, hguard, updateFS]
  · simp [removeFS]

theorem install_plugin_temp_cleanup_witness :
    install_plugin "foo" false false
        (.ok [("foo", PluginInfo.mk (some "d") (some "u"))]) []
        (.ok "script body") ["tmp", "inst.sh"] false fsEmpty
      = .ok (removeFS (updateFS fsEmpty ["tmp", "inst.sh"] (.file "script body"))
               ["tmp", "inst.sh"],
          [.fetchingScript, .runningScript "foo",
           (if false then PMsg.installSuccess "foo" else PMsg.installScriptError),
           .cleanupComplete])
    ∧ removeFS (updateFS fsEmpty ["tmp", "inst.sh"] (.file "script body"))
        ["tmp", "inst.sh"] ["tmp", "inst.sh"] = none :=
  install_plugin_temp_cleanup "foo" false false
    [("foo", PluginInfo.mk (some "d") (some "u"))] []
    (PluginInfo.mk (some "d") (some "u")) "u" "script body" ["tmp", "inst.sh"]
    false fsEmpty rfl rfl rfl

/-- C9: on a failed registry fetch during the listing command, the error is
reported by `retrieve_registry`, but `list_plugins` then calls `.items()` on
the returned `None` and raises an uncaught `AttributeError` — the command
does not return early cleanly. -/
theorem list_plugins_crashes_on_fetch_error :
    list_plugins (.error "connection error") ["efr-foo"]
      = ([.fetchRegistryError],
         .error (.attributeError "NoneType has no attribute items")) := rfl

/-- C10: with the template present, `_init_file` raises `FileExistsError`
precisely when the target does NOT exist (writing nothing), and overwrites
the target with the rendered template when the target DOES exist: the
existence guard is inverted relative to its abort-to-avoid-overwriting
message. -/
theorem init_file_inverted_guard (tpl tgt : Path) (render : String → String)
    (c : String) (fs : FS) (htpl : fs tpl = some (.file c)) :
    (fs tgt = none → init_file tpl tgt render fs = (fs, .error (.fileExistsErr tgt)))
    ∧ (∀ e : Entry, fs tgt = some e →
        init_file tpl tgt render fs
          = (updateFS fs tgt (.file (render c)), .ok [.fileInitialized (pathName tgt)])) := by
  constructor
  · intro h
    simp [init_file, fsExists, htpl, h]
  · intro e h
    simp [init_file, fsExists, htpl, h]

/-- Template present, target absent. -/
def fsInit1 : FS := fun p => if p = ["tpl"] then some (.file "T") else none

/-- Template present, target present with old contents. -/
def fsInit2 : FS := fun p =>
  if p = ["tpl"] then some (.file "T")
  else if p = ["g"] then some (.file "OLD")
  else none

theorem init_file_inverted_guard_witness :
    init_file ["tpl"] ["g"] (fun s => s) fsInit1 = (fsInit1, .error (.fileExistsErr ["g"]))
    ∧ init_file ["tpl"] ["g"] (fun s => s) fsInit2
        = (updateFS fsInit2 ["g"] (.file "T"), .ok [.fileInitialized "g"]) :=
  ⟨(init_file_inverted_guard ["tpl"] ["g"] (fun s => s) "T" fsInit1 rfl).1 rfl,
   (init_file_inverted_guard ["tpl"] ["g"] (fun s => s) "T" fsInit2 rfl).2 (.file "OLD") rfl⟩

end Efr
